import Mathlib

/-!
Shallow embedding of the WebRTC signaling server (repository
tmbmnadim/node_websoc_server).

The canonical signaling variant is the answer-aggregating websocket server
in src/unnamed/part_006 (a ws/socketServer.js variant) together with the
connection registry src/src/services/socketService.js.  A second join
handler variant (handleJoin, src/src/ws/socketServer.js lines 117-149) is
embedded separately for the join claims.  Identifiers (clientId, userId,
meetingId) are modelled as String, matching the uuid / string ids of the
source; SDP payloads and ICE candidates are opaque String values.

JavaScript objects used as string-keyed dictionaries are modelled as
association lists with JS object semantics: setting an existing key
overwrites in place (key order preserved), setting a new key appends,
delete removes the key.  JS Map and Set are modelled the same way
(insertion ordered, unique keys).  Maps that are only ever indexed
pointwise (metas, userToClient, meetings, waitingAnswers) are modelled as
functions into Option.
-/

/-- JS logical-or fallback on optional values: a || b (for id-valued fields,
which are never the empty string in reachable states). -/
def jsOr {α : Type} (a b : Option α) : Option α :=
  match a with
  | some x => some x
  | none => b

/-- Association-list lookup: JS obj[k] (none when the key is absent). -/
def alGet {α : Type} : List (String × α) → String → Option α
  | [], _ => none
  | (k', v) :: t, k => if k' = k then some v else alGet t k

/-- Association-list write: JS obj[k] = v.  Overwrites in place when the key
exists (JS objects keep the original key position), otherwise appends. -/
def alSet {α : Type} : List (String × α) → String → α → List (String × α)
  | [], k, v => [(k, v)]
  | (k', v') :: t, k, v =>
    if k' = k then (k, v) :: t else (k', v') :: alSet t k v

/-- Association-list delete: JS delete obj[k]. -/
def alDel {α : Type} : List (String × α) → String → List (String × α)
  | [], _ => []
  | (k', v') :: t, k => if k' = k then alDel t k else (k', v') :: alDel t k

/-- JS Set.add on an insertion-ordered list of unique elements. -/
def setAdd (l : List String) (x : String) : List String :=
  if x ∈ l then l else l ++ [x]

/-- Per-connection metadata: metas.get(clientId) value in
src/src/services/socketService.js, the pair of the bound user and the bound
meeting (both nullable). -/
structure Meta where
  userId : Option String
  meetingId : Option String
deriving DecidableEq

/-- The connection registry of src/src/services/socketService.js: the three
module-level maps clients (clientId -> ws, modelled by the list of live
client ids, socket handles abstracted away), metas and userToClient. -/
structure SocketService where
  clients : List String
  metas : String → Option Meta
  userToClient : String → Option String

/-- The initial (empty) registry. -/
def SocketService.init : SocketService :=
  ⟨[], fun _ => none, fun _ => none⟩

/-- socketService.addSocket: stores the socket under a fresh clientId and
initialises its meta to ⟨null, null⟩.  Freshness of the uuid is a hypothesis
of theorems that need it. -/
def SocketService.addSocket (s : SocketService) (clientId : String) : SocketService :=
  { clients := s.clients ++ [clientId]
    metas := fun c => if c = clientId then some ⟨none, none⟩ else s.metas c
    userToClient := s.userToClient }

/-- socketService.removeSocket: deletes the meta and the socket entry; if the
removed connection's meta names a user, the reverse userToClient entry for
that user is deleted unconditionally (the source performs no check that the
removed connection still owns the reverse mapping). -/
def SocketService.removeSocket (s : SocketService) (clientId : String) : SocketService :=
  let u2c : String → Option String :=
    match s.metas clientId with
    | some m =>
      match m.userId with
      | some u => fun x => if x = u then none else s.userToClient x
      | none => s.userToClient
    | none => s.userToClient
  { clients := s.clients.erase clientId
    metas := fun c => if c = clientId then none else s.metas c
    userToClient := u2c }

/-- socketService.bindUser: sets meta.userId (creating an empty meta when
absent, per the JS `metas.get(clientId) || {}` fallback) and points
userToClient at this connection (latest-wins). -/
def SocketService.bindUser (s : SocketService) (clientId userId : String) : SocketService :=
  let meta := (s.metas clientId).getD ⟨none, none⟩
  { s with
    metas := fun c =>
      if c = clientId then some { meta with userId := some userId } else s.metas c
    userToClient := fun u => if u = userId then some clientId else s.userToClient u }

/-- socketService.bindMeeting: sets meta.meetingId (nullable). -/
def SocketService.bindMeeting (s : SocketService) (clientId : String)
    (meetingId : Option String) : SocketService :=
  let meta := (s.metas clientId).getD ⟨none, none⟩
  { s with
    metas := fun c =>
      if c = clientId then some { meta with meetingId := meetingId } else s.metas c }

/-- socketService.getClientIdByUser. -/
def SocketService.getClientIdByUser (s : SocketService) (userId : String) : Option String :=
  s.userToClient userId

/-- socketService.getMeta. -/
def SocketService.getMeta (s : SocketService) (clientId : String) : Option Meta :=
  s.metas clientId

/-- socketService.listClients. -/
def SocketService.listClients (s : SocketService) : List String :=
  s.clients

/-- An offer/answer array entry of part_006: an object with fields from, to
and sdp_details (the SDP payload kept opaque). -/
structure Ans where
  fromUser : String
  toUser : String
  sdp_details : String
deriving DecidableEq

/-- A meeting record of part_006: meetings[meetingId] holds a participant
set, cached sdps per user, and ordered ICE candidate lists per user. -/
structure Meeting where
  participants : List String
  sdps : List (String × String)
  iceCandidates : List (String × List String)
deriving DecidableEq

/-- A fresh meeting value, as created by the get-or-create pattern
`meetings[meetingId] = { participants: new Set(), sdps: {}, iceCandidates: {} }`. -/
def Meeting.empty : Meeting :=
  ⟨[], [], []⟩

/-- An aggregation session of part_006: waitingAnswers[joinerKey].  The
`timer` field holds the id of the pending setTimeout handle (none once
cleared). -/
structure Session where
  expected : List String
  collected : List (String × Ans)
  collectedCandidates : List (String × List String)
  joinerClientId : String
  timer : Option Nat
deriving DecidableEq

/-- Outbound wire payloads of part_006, one constructor per
`sendToClient`/`broadcastToMeeting` call site. -/
inductive Payload
  | errorMsg (message : String)
  | registered (fromUser : String)
  | participantsMsg (meeting_id : String) (participants : List String)
  | offerFwd (offers : List Ans) (meeting_id : Option String)
  | offerAck (fromUser : String)
  | answerMsg (answers : List Ans) (candidates : List (String × List String))
  | answerAck (fromUser : String)
  | iceFwd (fromUser toUser : String) (candidate : String)
  | iceMapMsg (meeting_id : String) (ice_map : List (String × List String))
  | participantLeft (fromUser : String)
  | leaveAck (fromUser : String)
  | participantJoined (userId meetingId : String)
  | meetingState (meetingId : String) (participants : List String)
      (iceMap : List (String × List String)) (sdpMap : List (String × String))
  | iceSync (meetingId : String) (iceMap : List (String × List String))
deriving DecidableEq

/-- A delivered message: target clientId paired with the payload. -/
abbrev Send := String × Payload

/-- sendToClient: delivers the payload when the client's socket is present
in the registry, otherwise logs and sends nothing. -/
def svcSend (svc : SocketService) (clientId : String) (p : Payload) : List Send :=
  if clientId ∈ svc.clients then [(clientId, p)] else []

/-- broadcastToMeeting: iterates listClients(), skips the excluded client,
and delivers to every connection whose meta.meetingId equals the target
meeting.  Reads only the connection registry, never the meeting store. -/
def svcBroadcast (svc : SocketService) (meetingId : String) (excl : Option String)
    (p : Payload) : List Send :=
  svc.clients.flatMap fun c =>
    if some c = excl then []
    else
      match svc.metas c with
      | some m => if m.meetingId = some meetingId then svcSend svc c p else []
      | none => []

/-- The whole mutable state of the part_006 server module: the connection
registry plus the module-level `meetings` and `waitingAnswers` objects.
`pendingTimers` models the set of armed setTimeout handles as
(timerId, joinerKey, delayMs) triples; `nextTimerId` provides fresh handles. -/
structure ServerState where
  svc : SocketService
  meetings : String → Option Meeting
  waitingAnswers : String → Option Session
  pendingTimers : List (Nat × String × Nat)
  nextTimerId : Nat

/-- The initial server state: empty registry, no meetings, no sessions. -/
def ServerState.init : ServerState :=
  ⟨SocketService.init, fun _ => none, fun _ => none, [], 0⟩

/-- sendToClient of part_006 lifted to the server state. -/
def sendToClient (s : ServerState) (clientId : String) (p : Payload) : List Send :=
  svcSend s.svc clientId p

/-- broadcastToMeeting of part_006 lifted to the server state. -/
def broadcastToMeeting (s : ServerState) (meetingId : String) (excl : Option String)
    (p : Payload) : List Send :=
  svcBroadcast s.svc meetingId excl p

/-- The joiner key used by part_006 for waitingAnswers. -/
def joinerKeyOf (meetingId fromUser : String) : String :=
  meetingId ++ ":" ++ fromUser

/-- flushWaitingAnswers of part_006: when a session exists for the key, clear
its timer, build the aggregated answers and the combined candidate groups in
collected-key order, send one answer message to the joiner (silently dropped
when the joiner's socket is gone), and delete the session. -/
def flushWaitingAnswers (s : ServerState) (joinerKey : String) : ServerState × List Send :=
  match s.waitingAnswers joinerKey with
  | none => (s, [])
  | some entry =>
    let s1 : ServerState :=
      match entry.timer with
      | some tid => { s with pendingTimers := s.pendingTimers.filter (fun t => t.1 ≠ tid) }
      | none => s
    let collectedAnswers := entry.collected.map (fun kv => kv.2)
    let combinedCandidates := entry.collected.filterMap fun kv =>
      match alGet entry.collectedCandidates kv.1 with
      | some cands => if cands ≠ [] then some (kv.1, cands) else none
      | none => none
    let sends :=
      if entry.joinerClientId ≠ "" then
        sendToClient s1 entry.joinerClientId (.answerMsg collectedAnswers combinedCandidates)
      else []
    ({ s1 with waitingAnswers := fun k => if k = joinerKey then none else s1.waitingAnswers k },
     sends)

/-- A setTimeout callback firing: the JS event loop runs the flush callback
for a key only while its timer handle is still armed (clearTimeout removes
it); firing consumes the handle and then runs flushWaitingAnswers. -/
def timerFire (s : ServerState) (tid : Nat) (joinerKey : String) : ServerState × List Send :=
  if s.pendingTimers.any (fun t => t.1 = tid ∧ t.2.1 = joinerKey) then
    flushWaitingAnswers
      { s with pendingTimers := s.pendingTimers.filter (fun t => t.1 ≠ tid) } joinerKey
  else (s, [])

/-- Handler results: ok carries the new state and the sends so far; error
(a JS throw caught by handleMessage) carries the thrown message together
with the state and sends at the moment of the throw. -/
abbrev HResult := Except (String × ServerState × List Send) (ServerState × List Send)

/-- handleRegister of part_006: requires data.from, binds the user and
acknowledges with a registered message. -/
def handleRegister (s : ServerState) (clientId : String) (dataFrom : Option String) : HResult :=
  match dataFrom with
  | none => .error ("register requires from (userId)", s, [])
  | some userId =>
    let s' : ServerState := { s with svc := s.svc.bindUser clientId userId }
    .ok (s', sendToClient s' clientId (.registered userId))

/-- handleJoinRequest of part_006: requires a bound user and data.meeting_id;
creates the meeting lazily and replies with the current participant list.
It does not add the requester to the participant set, does not bind the
meeting, and broadcasts nothing. -/
def handleJoinRequest (s : ServerState) (clientId : String) (fromUser : Option String)
    (meeting_id : Option String) : HResult :=
  match fromUser with
  | none => .error ("Must register before join_request", s, [])
  | some _ =>
    match meeting_id with
    | none => .error ("join_request requires meeting_id", s, [])
    | some mid =>
      let s' : ServerState :=
        match s.meetings mid with
        | some _ => s
        | none =>
          { s with meetings := fun m => if m = mid then some Meeting.empty else s.meetings m }
      let parts := ((s'.meetings mid).getD Meeting.empty).participants
      .ok (s', sendToClient s' clientId (.participantsMsg mid parts))

/-- The distinct-target set collected by handleOffer: Set of o.to over the
offers array, skipping falsy targets. -/
def collectTargets (offers : List Ans) : List String :=
  offers.foldl (fun acc o => if o.toUser ≠ "" then setAdd acc o.toUser else acc) []

/-- One iteration of the handleOffer forwarding loop: forward the single
offer to its target when online; when offline and a session exists for the
joiner key, remove the target from expectedPeers; in the meeting flow,
get-or-create the meeting and add the target to its participants. -/
def offerStep (meeting_id : Option String) (joinerKey : Option String)
    (acc : ServerState × List Send) (o : Ans) : ServerState × List Send :=
  let s := acc.1
  let payload : Payload := .offerFwd [o] meeting_id
  let (s1, sends1) :=
    match s.svc.getClientIdByUser o.toUser with
    | some targetClientId => (s, sendToClient s targetClientId payload)
    | none =>
      match joinerKey with
      | some key =>
        match s.waitingAnswers key with
        | some entry =>
          ({ s with waitingAnswers := fun k =>
              if k = key then some { entry with expected := entry.expected.erase o.toUser }
              else s.waitingAnswers k }, [])
        | none => (s, [])
      | none => (s, [])
  let s2 : ServerState :=
    match meeting_id with
    | some mid =>
      let mt := (s1.meetings mid).getD Meeting.empty
      { s1 with meetings := fun m =>
          if m = mid then some { mt with participants := setAdd mt.participants o.toUser }
          else s1.meetings m }
    | none => s1
  (s2, acc.2 ++ sends1)

/-- handleOffer of part_006: requires a bound user and a nonempty offers
array; in the meeting flow it (re)creates the waitingAnswers session for
joinerKey = meetingId:fromUser with a fresh 3000 ms deadline timer, then
forwards each offer and finally acks the sender. -/
def handleOffer (s : ServerState) (clientId : String) (fromUser : Option String)
    (meeting_id : Option String) (offers : List Ans) : HResult :=
  match fromUser with
  | none => .error ("Must register to send offers", s, [])
  | some fu =>
    if offers = [] then .error ("offers array required", s, [])
    else
      let joinerKey : Option String := meeting_id.map (fun mid => joinerKeyOf mid fu)
      let s0 : ServerState :=
        match meeting_id with
        | some mid =>
          let key := joinerKeyOf mid fu
          let sess : Session :=
            { expected := collectTargets offers
              collected := []
              collectedCandidates := []
              joinerClientId := clientId
              timer := some s.nextTimerId }
          { s with
            waitingAnswers := fun k => if k = key then some sess else s.waitingAnswers k
            pendingTimers := s.pendingTimers ++ [(s.nextTimerId, key, 3000)]
            nextTimerId := s.nextTimerId + 1 }
        | none => s
      let (s1, sends) := offers.foldl (offerStep meeting_id joinerKey) (s0, [])
      .ok (s1, sends ++ sendToClient s1 clientId (.offerAck fu))

/-- The candidatesMap built by handleAnswer from data.candidates: a helper
object keyed by group.user_id (last group wins), skipping falsy user ids. -/
def buildCandidatesMap (groups : List (String × List String)) : List (String × List String) :=
  groups.foldl (fun acc g => if g.1 ≠ "" then alSet acc g.1 g.2 else acc) []

/-- One iteration of the handleAnswer loop: when an open session exists for
meetingId:ans.to, record the answer (and the sender's candidate group) under
the answering user's key and flush if collectedAnswers now covers
expectedPeers; otherwise forward the answer directly to ans.to when online. -/
def answerStep (fromUser : String) (meeting_id : Option String)
    (candidatesMap : List (String × List String)) (candidateGroups : List (String × List String))
    (acc : ServerState × List Send) (ans : Ans) : ServerState × List Send :=
  let s := acc.1
  let toUser := ans.toUser
  let joinerKey : Option String := meeting_id.map (fun mid => joinerKeyOf mid toUser)
  match joinerKey with
  | some key =>
    match s.waitingAnswers key with
    | some entry =>
      let entry' : Session :=
        { entry with
          collected := alSet entry.collected fromUser ans
          collectedCandidates :=
            alSet entry.collectedCandidates fromUser ((alGet candidatesMap fromUser).getD []) }
      let s1 : ServerState :=
        { s with waitingAnswers := fun k => if k = key then some entry' else s.waitingAnswers k }
      let haveAll := entry'.expected.all (fun u => (alGet entry'.collected u).isSome)
      if haveAll then
        let (s2, sends2) := flushWaitingAnswers s1 key
        (s2, acc.2 ++ sends2)
      else (s1, acc.2)
    | none =>
      match s.svc.getClientIdByUser toUser with
      | some targetClientId =>
        (s, acc.2 ++ sendToClient s targetClientId (.answerMsg [ans] candidateGroups))
      | none => (s, acc.2)
  | none =>
    match s.svc.getClientIdByUser toUser with
    | some targetClientId =>
      (s, acc.2 ++ sendToClient s targetClientId (.answerMsg [ans] candidateGroups))
    | none => (s, acc.2)

/-- handleAnswer of part_006: requires a bound user and a nonempty answers
array; processes each answer through the aggregate-or-forward loop and acks
the sender. -/
def handleAnswer (s : ServerState) (clientId : String) (fromUser : Option String)
    (meeting_id : Option String) (answers : List Ans)
    (candidateGroups : List (String × List String)) : HResult :=
  match fromUser with
  | none => .error ("Must register to send answers", s, [])
  | some fu =>
    if answers = [] then .error ("answers array required", s, [])
    else
      let candidatesMap := buildCandidatesMap candidateGroups
      let (s1, sends) :=
        answers.foldl (answerStep fu meeting_id candidatesMap candidateGroups) (s, [])
      .ok (s1, sends ++ sendToClient s1 clientId (.answerAck fu))

/-- handleIceCandidate of part_006: requires a bound user and a candidate;
with data.to it forwards directly (error reply when the target is offline),
otherwise with a meeting id it appends to the meeting's candidate map and
rebroadcasts the aggregate map; with neither it throws. -/
def handleIceCandidate (s : ServerState) (clientId : String) (fromUser : Option String)
    (dataTo : Option String) (meeting_id : Option String) (candidate : Option String) : HResult :=
  match fromUser with
  | none => .error ("must register first", s, [])
  | some fu =>
    match candidate with
    | none => .error ("candidate missing", s, [])
    | some cand =>
      match dataTo with
      | some toUser =>
        match s.svc.getClientIdByUser toUser with
        | none =>
          .ok (s, sendToClient s clientId (.errorMsg ("target " ++ toUser ++ " offline")))
        | some targetClientId =>
          .ok (s, sendToClient s targetClientId (.iceFwd fu toUser cand))
      | none =>
        match meeting_id with
        | some mid =>
          let mt := (s.meetings mid).getD Meeting.empty
          let newList := ((alGet mt.iceCandidates fu).getD []) ++ [cand]
          let mt' : Meeting := { mt with iceCandidates := alSet mt.iceCandidates fu newList }
          let s1 : ServerState :=
            { s with meetings := fun m => if m = mid then some mt' else s.meetings m }
          .ok (s1, broadcastToMeeting s1 mid none (.iceMapMsg mid mt'.iceCandidates))
        | none => .error ("either to or meeting_id required for ice_candidate", s, [])

/-- removeUserFromMeeting of part_006: deletes the user from the meeting's
participant set, sdps and iceCandidates (no-op when the meeting is absent),
then broadcasts participant_left and the updated ice map.  The meeting entry
is never deleted, even when its participant set becomes empty. -/
def removeUserFromMeeting (s : ServerState) (userId meetingId : String) : ServerState × List Send :=
  match s.meetings meetingId with
  | none => (s, [])
  | some meeting =>
    let meeting' : Meeting :=
      { participants := meeting.participants.erase userId
        sdps := alDel meeting.sdps userId
        iceCandidates := alDel meeting.iceCandidates userId }
    let s' : ServerState :=
      { s with meetings := fun m => if m = meetingId then some meeting' else s.meetings m }
    let sends1 := broadcastToMeeting s' meetingId none (.participantLeft userId)
    let sends2 := broadcastToMeeting s' meetingId none (.iceMapMsg meetingId meeting'.iceCandidates)
    (s', sends1 ++ sends2)

/-- handleLeave of part_006: requires a bound user and a meeting id; removes
the user from the meeting, unbinds the connection's meeting and acks. -/
def handleLeave (s : ServerState) (clientId : String) (fromUser : Option String)
    (meetingId : Option String) : HResult :=
  match fromUser with
  | none => .error ("not in meeting", s, [])
  | some fu =>
    match meetingId with
    | none => .error ("meetingId required", s, [])
    | some mid =>
      let (s1, sends) := removeUserFromMeeting s fu mid
      let s2 : ServerState := { s1 with svc := s1.svc.bindMeeting clientId none }
      .ok (s2, sends ++ sendToClient s2 clientId (.leaveAck fu))

/-- handleClose of part_006 (transport close): when the connection's meta
binds both a user and a meeting, remove the user from the meeting; then
unregister the socket.  waitingAnswers and pendingTimers are not touched. -/
def handleClose (s : ServerState) (clientId : String) : ServerState × List Send :=
  let meta := (s.svc.metas clientId).getD ⟨none, none⟩
  let step :=
    match meta.userId, meta.meetingId with
    | some u, some m => removeUserFromMeeting s u m
    | _, _ => (s, [])
  ({ step.1 with svc := step.1.svc.removeSocket clientId }, step.2)

/-- Parsed inbound frames of part_006: one constructor per message type of
the switch in handleMessage, carrying the data fields each handler reads;
malformed stands for an unparseable frame (tryParse returning null) and
unknown for an unrecognised type tag. -/
inductive Msg
  | malformed
  | register (dataFrom : Option String)
  | joinRequest (dataFrom : Option String) (meeting_id : Option String)
  | offer (dataFrom : Option String) (meeting_id : Option String) (offers : List Ans)
  | answer (dataFrom : Option String) (meeting_id : Option String)
      (answers : List Ans) (candidates : List (String × List String))
  | ice (dataFrom : Option String) (dataTo : Option String)
      (meeting_id : Option String) (meetingIdAlt : Option String) (candidate : Option String)
  | leave (dataFrom : Option String) (meeting_id : Option String) (meetingIdAlt : Option String)
  | unknown (tag : String)
deriving DecidableEq

/-- The boundUser computed by handleMessage: meta.userId falling back to
data.from. -/
def boundUserOf (s : ServerState) (clientId : String) (dataFrom : Option String) : Option String :=
  jsOr (((s.svc.metas clientId).getD ⟨none, none⟩).userId) dataFrom

/-- The boundMeeting computed by handleMessage: meta.meetingId falling back
to data.meeting_id and then data.meetingId. -/
def boundMeetingOf (s : ServerState) (clientId : String)
    (mid midAlt : Option String) : Option String :=
  jsOr (((s.svc.metas clientId).getD ⟨none, none⟩).meetingId) (jsOr mid midAlt)

/-- The try block of handleMessage: dispatch by type to the handler,
passing the boundUser fallback the way part_006 computes it. -/
def dispatchMsg (s : ServerState) (clientId : String) (m : Msg) : HResult :=
  match m with
  | .malformed => .ok (s, [])
  | .unknown _ => .ok (s, [])
  | .register dataFrom => handleRegister s clientId dataFrom
  | .joinRequest dataFrom mid =>
    handleJoinRequest s clientId (boundUserOf s clientId dataFrom) mid
  | .offer dataFrom mid offers =>
    handleOffer s clientId (boundUserOf s clientId dataFrom) mid offers
  | .answer dataFrom mid answers candidates =>
    handleAnswer s clientId (boundUserOf s clientId dataFrom) mid answers candidates
  | .ice dataFrom dataTo mid midAlt candidate =>
    handleIceCandidate s clientId (boundUserOf s clientId dataFrom) dataTo
      (jsOr mid midAlt) candidate
  | .leave dataFrom mid midAlt =>
    handleLeave s clientId (boundUserOf s clientId dataFrom)
      (boundMeetingOf s clientId mid midAlt)

/-- handleMessage of part_006: invalid json and unknown type each produce an
error reply directly; every other type runs its handler inside the try,
and a thrown error is caught and turned into an error reply to the sender
(appended to whatever was already sent before the throw). -/
def handleMessage (s : ServerState) (clientId : String) (m : Msg) : ServerState × List Send :=
  match m with
  | .malformed => (s, sendToClient s clientId (.errorMsg "invalid json"))
  | .unknown tag => (s, sendToClient s clientId (.errorMsg ("unknown type: " ++ tag)))
  | _ =>
    match dispatchMsg s clientId m with
    | .ok r => r
    | .error (e, st, sn) => (st, sn ++ sendToClient st clientId (.errorMsg e))

/-- The error text an inbound frame produces, when it is rejected: invalid
json, unknown type, or the message of the precondition check that threw. -/
def precondError (s : ServerState) (clientId : String) (m : Msg) : Option String :=
  match m with
  | .malformed => some "invalid json"
  | .unknown tag => some ("unknown type: " ++ tag)
  | _ =>
    match dispatchMsg s clientId m with
    | .error (e, _, _) => some e
    | .ok _ => none

/-- The get-or-create read of the part_006 meeting store: the stored meeting
when present, otherwise the fresh empty meeting the creation pattern
installs. -/
def getOrCreate (s : ServerState) (meetingId : String) : Meeting :=
  (s.meetings meetingId).getD Meeting.empty

/-- State of the handleJoin variant (src/src/ws/socketServer.js, first
module, lines 117-149): the shared connection registry plus that module's
own meetings object. -/
structure StateB where
  svc : SocketService
  meetings : String → Option Meeting

/-- handleJoin of src/src/ws/socketServer.js: requires a registered user and
data.meetingId; binds the meeting, get-or-creates the meeting record, adds
the user to its participants, broadcasts participant-joined with no excluded
client, sends the meeting-state snapshot (taken after the add) to the
joiner, and finally rebroadcasts the ice map to the whole meeting. -/
def handleJoinB (s : StateB) (clientId : String) (userId : Option String)
    (meeting_id : Option String) : Except (String × StateB × List Send) (StateB × List Send) :=
  match userId with
  | none => .error ("Must register first", s, [])
  | some u =>
    match meeting_id with
    | none => .error ("meetingId required", s, [])
    | some mid =>
      let svc1 := s.svc.bindMeeting clientId (some mid)
      let mt := (s.meetings mid).getD Meeting.empty
      let mt' : Meeting := { mt with participants := setAdd mt.participants u }
      let s1 : StateB :=
        { svc := svc1, meetings := fun m => if m = mid then some mt' else s.meetings m }
      let sends1 := svcBroadcast s1.svc mid none (.participantJoined u mid)
      let sends2 :=
        svcSend s1.svc clientId (.meetingState mid mt'.participants mt'.iceCandidates mt'.sdps)
      let sends3 := svcBroadcast s1.svc mid none (.iceSync mid mt'.iceCandidates)
      .ok (s1, sends1 ++ sends2 ++ sends3)

/-- Modelled from the spec: HeartbeatMonitor (spec section 4.3).  No
heartbeat implementation exists under src/ (no probe timer, activity marker
or eviction appears in any source file); the monitor is modelled from the
spec's words over the embedded server state.  alive c is the activity
marker: true when inbound traffic was observed on c since the previous
probe. -/
structure HBState where
  server : ServerState
  alive : String → Bool

/-- Modelled from the spec: one probe pass over a snapshot of the registered
connections.  A connection with no activity since the previous probe is
evicted through the identical teardown used for a normal close
(handleClose); otherwise it is marked pending (activity marker cleared) and
probed.  Returns the accumulated eviction list. -/
def hbProcess (snapshot : String → Bool) : List String → HBState → List String →
    HBState × List String
  | [], st, ev => (st, ev)
  | c :: t, st, ev =>
    if snapshot c then
      hbProcess snapshot t
        { st with alive := fun x => if x = c then false else st.alive x } ev
    else
      hbProcess snapshot t { st with server := (handleClose st.server c).1 } (ev ++ [c])

/-- Modelled from the spec: a heartbeat tick, probing every connection
registered at the start of the tick. -/
def hbTick (s : HBState) : HBState × List String :=
  hbProcess s.alive s.server.svc.clients s []

/-- Modelled from the spec: any inbound message on a connection resets its
activity marker. -/
def hbInbound (s : HBState) (c : String) : HBState :=
  { s with alive := fun x => if x = c then true else s.alive x }

/-- Demo registry: three live sockets cJ (the joiner), cA and cB. -/
def demoSvc : SocketService :=
  ((SocketService.init.addSocket "cJ").addSocket "cA").addSocket "cB"

/-- Demo state after the three sockets connected. -/
def demo1 : ServerState :=
  { ServerState.init with svc := demoSvc }

/-- Demo state: cJ registered as uJ. -/
def demo2 : ServerState :=
  (handleMessage demo1 "cJ" (.register (some "uJ"))).1

/-- Demo state: cA registered as uA. -/
def demo3 : ServerState :=
  (handleMessage demo2 "cA" (.register (some "uA"))).1

/-- Demo state: cB registered as uB. -/
def demo4 : ServerState :=
  (handleMessage demo3 "cB" (.register (some "uB"))).1

/-- Demo offer fan-out of joiner uJ towards uA and uB in meeting m. -/
def demoOffer : Msg :=
  .offer none (some "m") [⟨"uJ", "uA", "sdp1"⟩, ⟨"uJ", "uB", "sdp2"⟩]

/-- Demo state with an open aggregation session at key m:uJ expecting uA
and uB (timer id 0 armed for 3000 ms). -/
def demo5 : ServerState :=
  (handleMessage demo4 "cJ" demoOffer).1

/-- Demo state after uA's answer was collected (uB still missing). -/
def demo6 : ServerState :=
  (handleMessage demo5 "cA" (.answer none (some "m") [⟨"uA", "uJ", "sdpA"⟩] [("uA", ["candA"])])).1

/-- Demo state for the C4 counterexample: cA registered as u2 cached an ICE
candidate into meeting m without being a participant, then cB (registered
as w) fanned an offer to u1, making u1 the only participant of m. -/
def c4state : ServerState :=
  let a := (handleMessage demo1 "cA" (.register (some "u2"))).1
  let b := (handleMessage a "cA" (.ice none none (some "m") none (some "x"))).1
  let c := (handleMessage b "cB" (.register (some "w"))).1
  (handleMessage c "cB" (.offer none (some "m") [⟨"w", "u1", "s"⟩])).1

/-- Demo registry for the join variant: cA bound to user u1 and meeting m,
cB bound to user u2 and not yet in a meeting. -/
def bSvc : SocketService :=
  ((((SocketService.init.addSocket "cA").addSocket "cB").bindUser "cA" "u1").bindUser
    "cB" "u2").bindMeeting "cA" (some "m")

/-- Demo join-variant state: meeting m has the single participant u1. -/
def bState : StateB :=
  ⟨bSvc, fun m => if m = "m" then some ⟨["u1"], [], []⟩ else none⟩

/-- Demo state whose aggregation session at m:uJ has an empty expectedPeers
set: uJ fanned an offer at the offline user uX, which was removed from
expectedPeers immediately. -/
def demoE : ServerState :=
  (handleMessage demo4 "cJ" (.offer none (some "m") [⟨"uJ", "uX", "sdpX"⟩])).1

theorem alGet_alSet_self {α : Type} (l : List (String × α)) (k : String) (v : α) :
    alGet (alSet l k v) k = some v := by
  induction l with
  | nil => simp [alSet, alGet]
  | cons h t ih =>
    obtain ⟨k', v'⟩ := h
    by_cases hk : k' = k
    · simp [alSet, alGet, hk]
    · simp [alSet, alGet, hk, ih]

theorem alSet_self_mem {α : Type} (l : List (String × α)) (k : String) (v : α) :
    (k, v) ∈ alSet l k v := by
  induction l with
  | nil => simp [alSet]
  | cons h t ih =>
    obtain ⟨k', v'⟩ := h
    by_cases hk : k' = k
    · simp [alSet, hk]
    · simp [alSet, hk]
      right
      exact ih

theorem alGet_alDel_self {α : Type} (l : List (String × α)) (k : String) :
    alGet (alDel l k) k = none := by
  induction l with
  | nil => simp [alDel, alGet]
  | cons h t ih =>
    obtain ⟨k', v'⟩ := h
    by_cases hk : k' = k
    · simp [alDel, hk, ih]
    · simp [alDel, alGet, hk, ih]

/-- C3 counterexample: user u registers on c1 and later on c2; unregistering
c1 does not leave connectionOf(u) = c2 — removeSocket deletes the reverse
mapping unconditionally, so connectionOf(u) becomes none. -/
theorem C3_counterexample :
    ((((((SocketService.init.addSocket "c1").addSocket "c2").bindUser "c1" "u").bindUser
      "c2" "u").removeSocket "c1").getClientIdByUser "u") ≠ some "c2" := by
  decide

/-- C3 (amended): connectionOf(u) returns the most recent register's
connection, but unregister removes the reverse mapping whenever the removed
connection's meta records u as its bound user, with no check that the
removed connection still owns the mapping; hence after u registers on c1
and later on c2, unregistering c1 leaves connectionOf(u) = none. -/
theorem C3_theorem (s : SocketService) (c1 c2 u : String) (hne : c1 ≠ c2) :
    (((s.bindUser c1 u).bindUser c2 u).getClientIdByUser u = some c2) ∧
    ((((s.bindUser c1 u).bindUser c2 u).removeSocket c1).getClientIdByUser u = none) ∧
    (∀ (t : SocketService) (c x : String),
      (t.removeSocket c).getClientIdByUser x =
        match t.metas c with
        | some m => if m.userId = some x then none else t.userToClient x
        | none => t.userToClient x) := by
  refine ⟨?_, ?_, ?_⟩
  · simp [SocketService.bindUser, SocketService.getClientIdByUser]
  · simp [SocketService.bindUser, SocketService.removeSocket,
      SocketService.getClientIdByUser, hne, Ne.symm hne]
  · intro t c x
    simp only [SocketService.removeSocket, SocketService.getClientIdByUser]
    cases hm : t.metas c with
    | none => simp
    | some m =>
      cases hu : m.userId with
      | none => simp [hu]
      | some w =>
        by_cases hx : x = w
        · simp [hu, hx]
        · simp [hu, hx, Ne.symm hx]

/-- C3 witness: the amended behaviour at the concrete registration
sequence of the counterexample. -/
theorem C3_witness :
    ((((SocketService.init.bindUser "c1" "u").bindUser "c2" "u").getClientIdByUser "u"
        = some "c2") ∧
      ((((SocketService.init.bindUser "c1" "u").bindUser "c2" "u").removeSocket
          "c1").getClientIdByUser "u" = none)) := by
  have h := C3_theorem SocketService.init "c1" "c2" "u" (by decide)
  exact ⟨h.1, h.2.1⟩

/-- C9: the recipients of a meeting broadcast are exactly the live
connections (other than the excluded one) whose connection-level meta binds
the target meeting; the meeting's participant set is never consulted, so the
same sends result whatever the meeting store, the session table and the
timers hold. -/
theorem C9_theorem (s : ServerState) (mid : String) (excl : Option String) (p : Payload) :
    (∀ c, (c, p) ∈ broadcastToMeeting s mid excl p ↔
      c ∈ s.svc.clients ∧ some c ≠ excl ∧
        ∃ m, s.svc.metas c = some m ∧ m.meetingId = some mid) ∧
    (∀ (meetings2 : String → Option Meeting) (wa2 : String → Option Session)
        (pt2 : List (Nat × String × Nat)) (n2 : Nat),
      broadcastToMeeting ⟨s.svc, meetings2, wa2, pt2, n2⟩ mid excl p =
        broadcastToMeeting s mid excl p) := by
  constructor
  · intro c
    constructor
    · intro hmem
      simp only [broadcastToMeeting, svcBroadcast, List.mem_flatMap] at hmem
      obtain ⟨a, ha, hin⟩ := hmem
      by_cases he : some a = excl
      · simp [he] at hin
      · rw [if_neg he] at hin
        cases hm : s.svc.metas a with
        | none => simp [hm] at hin
        | some m =>
          simp only [hm] at hin
          by_cases hmid : m.meetingId = some mid
          · rw [if_pos hmid] at hin
            simp only [svcSend] at hin
            by_cases hac : a ∈ s.svc.clients
            · rw [if_pos hac] at hin
              simp only [List.mem_singleton, Prod.mk.injEq] at hin
              obtain ⟨hca, -⟩ := hin
              subst hca
              exact ⟨hac, he, m, hm, hmid⟩
            · simp [hac] at hin
          · simp [hmid] at hin
    · rintro ⟨hc, hex, m, hm, hmid⟩
      simp only [broadcastToMeeting, svcBroadcast, List.mem_flatMap]
      refine ⟨c, hc, ?_⟩
      rw [if_neg hex]
      simp only [hm]
      rw [if_pos hmid]
      simp [svcSend, hc]
  · intro meetings2 wa2 pt2 n2
    rfl

/-- C9 witness: in a registry where cA is bound to meeting m and cB is not,
a broadcast to m with no exclusion reaches cA and not cB. -/
theorem C9_witness :
    (("cA", Payload.participantLeft "u1") ∈
      broadcastToMeeting ⟨bSvc, fun _ => none, fun _ => none, [], 0⟩ "m" none
        (Payload.participantLeft "u1")) ∧
    ¬ (("cB", Payload.participantLeft "u1") ∈
      broadcastToMeeting ⟨bSvc, fun _ => none, fun _ => none, [], 0⟩ "m" none
        (Payload.participantLeft "u1")) := by
  have h := C9_theorem ⟨bSvc, fun _ => none, fun _ => none, [], 0⟩ "m" none
    (Payload.participantLeft "u1")
  constructor
  · exact (h.1 "cA").mpr (by decide)
  · intro hmem
    have := (h.1 "cB").mp hmem
    revert this
    decide

/-- C4 counterexample: in a reachable state the meeting m holds participant
set containing only u1 while a non-participant's cached ICE entry (u2)
persists; removing u1 empties the participant set, yet the meeting entry is
not deleted and getOrCreate(m) returns the stale meeting, not a fresh empty
one. -/
theorem C4_counterexample :
    ((getOrCreate c4state "m").participants = ["u1"]) ∧
    ((removeUserFromMeeting c4state "u1" "m").1.meetings "m" ≠ none) ∧
    ((getOrCreate (removeUserFromMeeting c4state "u1" "m").1 "m").participants = []) ∧
    (getOrCreate (removeUserFromMeeting c4state "u1" "m").1 "m" ≠ Meeting.empty) := by
  decide

/-- C4 (amended): after removeParticipant(m,u) the user u is absent from m's
participant set, ICE-candidate map and SDP map; but the meeting entry is
retained even when the participant set becomes empty, so a subsequent
getOrCreate(m) returns the retained record (with u erased from all three
maps), not necessarily a fresh empty meeting. -/
theorem C4_theorem (s : ServerState) (u mid : String) (mt : Meeting)
    (hm : s.meetings mid = some mt) (hnd : mt.participants.Nodup) :
    (removeUserFromMeeting s u mid).1.meetings mid =
      some ⟨mt.participants.erase u, alDel mt.sdps u, alDel mt.iceCandidates u⟩ ∧
    u ∉ mt.participants.erase u ∧
    alGet (alDel mt.sdps u) u = none ∧
    alGet (alDel mt.iceCandidates u) u = none := by
  refine ⟨?_, hnd.not_mem_erase, alGet_alDel_self _ _, alGet_alDel_self _ _⟩
  simp [removeUserFromMeeting, hm]

/-- C4 witness: the amended behaviour at the concrete counterexample state. -/
theorem C4_witness :
    (removeUserFromMeeting c4state "u1" "m").1.meetings "m" =
      some ⟨[], [], [("u2", ["x"])]⟩ ∧
    "u1" ∉ (["u1"].erase "u1" : List String) := by
  have h := C4_theorem c4state "u1" "m" ⟨["u1"], [], [("u2", ["x"])]⟩ (by decide) (by decide)
  exact ⟨h.1, h.2.1⟩

theorem removeUserFromMeeting_sys (s : ServerState) (u m : String) :
    (removeUserFromMeeting s u m).1.svc = s.svc ∧
    (removeUserFromMeeting s u m).1.waitingAnswers = s.waitingAnswers ∧
    (removeUserFromMeeting s u m).1.pendingTimers = s.pendingTimers ∧
    (removeUserFromMeeting s u m).1.nextTimerId = s.nextTimerId := by
  unfold removeUserFromMeeting
  cases s.meetings m <;> simp

theorem handleClose_parts (s : ServerState) (c : String) :
    (handleClose s c).1.svc = s.svc.removeSocket c ∧
    (handleClose s c).1.waitingAnswers = s.waitingAnswers ∧
    (handleClose s c).1.pendingTimers = s.pendingTimers := by
  unfold handleClose
  cases hu : ((s.svc.metas c).getD ⟨none, none⟩).userId with
  | none => simp [hu]
  | some u =>
    cases hm : ((s.svc.metas c).getD ⟨none, none⟩).meetingId with
    | none => simp [hu, hm]
    | some mid =>
      have h := removeUserFromMeeting_sys s u mid
      simp [hu, hm, h.1, h.2.1, h.2.2.1]

/-- C5 counterexample: cJ owns the open aggregation session at key m:uJ in
demo5; after cJ's transport closes, the session and its armed deadline
timer are still present — handleClose does not discard pending
aggregation state. -/
theorem C5_counterexample :
    ((handleClose demo5 "cJ").1.waitingAnswers "m:uJ" ≠ none) ∧
    ((handleClose demo5 "cJ").1.pendingTimers = [(0, "m:uJ", 3000)]) := by
  decide

/-- C5 (amended): on transport close the bound user is removed from its
meeting (when both bindings exist) and the connection is unregistered, but a
pending aggregation session whose joiner is that connection is not
discarded: the session and its deadline timer survive the close; when the
session is later flushed (at its deadline) the delivery to the closed
joiner silently sends nothing, and only then is the session deleted. -/
theorem C5_theorem (s : ServerState) (c key : String) (sess : Session)
    (hnd : s.svc.clients.Nodup)
    (hsess : s.waitingAnswers key = some sess) (hjo : sess.joinerClientId = c) :
    ((handleClose s c).1.waitingAnswers key = some sess) ∧
    ((handleClose s c).1.pendingTimers = s.pendingTimers) ∧
    (c ∉ (handleClose s c).1.svc.clients) ∧
    ((flushWaitingAnswers (handleClose s c).1 key).2 = []) ∧
    ((flushWaitingAnswers (handleClose s c).1 key).1.waitingAnswers key = none) ∧
    (∀ u mid mt, s.svc.metas c = some ⟨some u, some mid⟩ → s.meetings mid = some mt →
      (handleClose s c).1.meetings mid =
        some ⟨mt.participants.erase u, alDel mt.sdps u, alDel mt.iceCandidates u⟩) := by
  obtain ⟨hsvc, hwa, hpt⟩ := handleClose_parts s c
  have hwkey : (handleClose s c).1.waitingAnswers key = some sess := by
    rw [hwa]; exact hsess
  have hcmem : c ∉ (handleClose s c).1.svc.clients := by
    rw [hsvc]
    exact hnd.not_mem_erase
  refine ⟨hwkey, hpt, hcmem, ?_, ?_, ?_⟩
  · unfold flushWaitingAnswers
    rw [hwkey]
    cases htimer : sess.timer with
    | none =>
      simp only [htimer, sendToClient, svcSend, hjo]
      simp [hcmem]
    | some tid =>
      simp only [htimer, sendToClient, svcSend, hjo]
      simp [hcmem]
  · unfold flushWaitingAnswers
    rw [hwkey]
    cases htimer : sess.timer <;> simp
  · intro u mid mt hmeta hmt
    unfold handleClose
    simp only [hmeta, Option.getD_some]
    unfold removeUserFromMeeting
    simp [hmt]

/-- C5 witness: the amended close behaviour at the concrete demo5 state,
whose open session at m:uJ is owned by cJ. -/
theorem C5_witness :
    ((handleClose demo5 "cJ").1.waitingAnswers "m:uJ" =
      some ⟨["uA", "uB"], [], [], "cJ", some 0⟩) ∧
    ("cJ" ∉ (handleClose demo5 "cJ").1.svc.clients) ∧
    ((flushWaitingAnswers (handleClose demo5 "cJ").1 "m:uJ").2 = []) := by
  have h := C5_theorem demo5 "cJ" "m:uJ" ⟨["uA", "uB"], [], [], "cJ", some 0⟩
    (by decide) (by decide) (by decide)
  exact ⟨h.1, h.2.2.1, h.2.2.2.1⟩

theorem flushWaitingAnswers_none (t : ServerState) (key : String)
    (h : t.waitingAnswers key = none) : flushWaitingAnswers t key = (t, []) := by
  unfold flushWaitingAnswers
  rw [h]

/-- C1: the first flush of a session deletes it and cancels its deadline
timer; a second flush for the key is a complete no-op, the deadline callback
after an early flush is a no-op, and an answer arriving for the key after
the flush is forwarded directly to its target (state unchanged) instead of
being aggregated. -/
theorem C1_theorem (s : ServerState) (key : String) (sess : Session)
    (hsess : s.waitingAnswers key = some sess) :
    ((flushWaitingAnswers s key).1.waitingAnswers key = none) ∧
    (∀ tid, sess.timer = some tid →
      ∀ e ∈ (flushWaitingAnswers s key).1.pendingTimers, e.1 ≠ tid) ∧
    (flushWaitingAnswers (flushWaitingAnswers s key).1 key =
      ((flushWaitingAnswers s key).1, [])) ∧
    (∀ tid, sess.timer = some tid →
      timerFire (flushWaitingAnswers s key).1 tid key = ((flushWaitingAnswers s key).1, [])) ∧
    (∀ c f mid u ans cg tc,
      key = joinerKeyOf mid u → ans.toUser = u →
      (flushWaitingAnswers s key).1.svc.getClientIdByUser u = some tc →
      handleAnswer (flushWaitingAnswers s key).1 c (some f) (some mid) [ans] cg =
        .ok ((flushWaitingAnswers s key).1,
          sendToClient (flushWaitingAnswers s key).1 tc (.answerMsg [ans] cg) ++
            sendToClient (flushWaitingAnswers s key).1 c (.answerAck f))) := by
  have hnone : (flushWaitingAnswers s key).1.waitingAnswers key = none := by
    unfold flushWaitingAnswers
    rw [hsess]
    cases htimer : sess.timer <;> simp [htimer]
  have htimers : ∀ tid, sess.timer = some tid →
      ∀ e ∈ (flushWaitingAnswers s key).1.pendingTimers, e.1 ≠ tid := by
    intro tid htid e he
    unfold flushWaitingAnswers at he
    rw [hsess] at he
    simp only [htid] at he
    simp only [List.mem_filter] at he
    simpa using he.2
  refine ⟨hnone, htimers, flushWaitingAnswers_none _ _ hnone, ?_, ?_⟩
  · intro tid htid
    unfold timerFire
    have hany : ((flushWaitingAnswers s key).1.pendingTimers.any
        (fun t => decide (t.1 = tid ∧ t.2.1 = key))) = false := by
      rw [List.any_eq_false]
      intro e he
      have hne := htimers tid htid e he
      simp [hne]
    rw [hany]
    simp
  · intro c f mid u ans cg tc hkey hto htc
    subst hkey
    subst hto
    unfold handleAnswer
    simp only [List.foldl_cons, List.foldl_nil]
    unfold answerStep
    simp only [SocketService.getClientIdByUser] at htc
    simp [htc, hnone, SocketService.getClientIdByUser]

/-- C1 witness: at the concrete demo6 session (uA collected, uB pending),
flushing once deletes the session, a subsequent deadline callback is a
no-op, and a later answer for the key is forwarded directly to the joiner. -/
theorem C1_witness :
    ((flushWaitingAnswers demo6 "m:uJ").1.waitingAnswers "m:uJ" = none) ∧
    (timerFire (flushWaitingAnswers demo6 "m:uJ").1 0 "m:uJ" =
      ((flushWaitingAnswers demo6 "m:uJ").1, [])) ∧
    (handleAnswer (flushWaitingAnswers demo6 "m:uJ").1 "cA" (some "uA") (some "m")
        [⟨"uA", "uJ", "sdpA2"⟩] [] =
      .ok ((flushWaitingAnswers demo6 "m:uJ").1,
        sendToClient (flushWaitingAnswers demo6 "m:uJ").1 "cJ"
            (.answerMsg [⟨"uA", "uJ", "sdpA2"⟩] []) ++
          sendToClient (flushWaitingAnswers demo6 "m:uJ").1 "cA" (.answerAck "uA"))) := by
  have h := C1_theorem demo6 "m:uJ"
    ⟨["uA", "uB"], [("uA", ⟨"uA", "uJ", "sdpA"⟩)], [("uA", ["candA"])], "cJ", some 0⟩
    (by decide)
  exact ⟨h.1, h.2.2.2.1 0 rfl,
    h.2.2.2.2 "cA" "uA" "m" "uJ" ⟨"uA", "uJ", "sdpA2"⟩ [] "cJ" rfl rfl (by decide)⟩

/-- Helper: the combined candidate groups a flush builds from a session. -/
def combinedOf (sess : Session) : List (String × List String) :=
  sess.collected.filterMap fun kv =>
    match alGet sess.collectedCandidates kv.1 with
    | some cands => if cands ≠ [] then some (kv.1, cands) else none
    | none => none

theorem flush_some (t : ServerState) (key : String) (sess : Session)
    (h : t.waitingAnswers key = some sess)
    (hjne : sess.joinerClientId ≠ "") (hjc : sess.joinerClientId ∈ t.svc.clients) :
    (flushWaitingAnswers t key).2 =
      [(sess.joinerClientId,
        Payload.answerMsg (sess.collected.map (fun kv => kv.2)) (combinedOf sess))] ∧
    (flushWaitingAnswers t key).1.waitingAnswers key = none ∧
    (flushWaitingAnswers t key).1.svc = t.svc := by
  unfold flushWaitingAnswers
  rw [h]
  cases htimer : sess.timer <;>
    simp [htimer, hjne, sendToClient, svcSend, hjc, combinedOf]

theorem offerStep_timers (mid jk : Option String) (acc : ServerState × List Send) (o : Ans) :
    (offerStep mid jk acc o).1.pendingTimers = acc.1.pendingTimers ∧
    (offerStep mid jk acc o).1.nextTimerId = acc.1.nextTimerId ∧
    (offerStep mid jk acc o).1.svc = acc.1.svc := by
  unfold offerStep
  rcases hg : acc.1.svc.getClientIdByUser o.toUser with _ | tc <;>
    rcases jk with _ | key <;>
      rcases mid with _ | m <;>
        simp [hg] <;>
          rcases hw : acc.1.waitingAnswers key with _ | entry <;>
            simp [hw]

theorem offerFold_timers (mid jk : Option String) (offers : List Ans) :
    ∀ acc : ServerState × List Send,
      ((offers.foldl (offerStep mid jk) acc).1.pendingTimers = acc.1.pendingTimers ∧
       (offers.foldl (offerStep mid jk) acc).1.nextTimerId = acc.1.nextTimerId ∧
       (offers.foldl (offerStep mid jk) acc).1.svc = acc.1.svc) := by
  induction offers with
  | nil => intro acc; exact ⟨rfl, rfl, rfl⟩
  | cons o t ih =>
    intro acc
    rw [List.foldl_cons]
    obtain ⟨h1, h2, h3⟩ := ih (offerStep mid jk acc o)
    obtain ⟨g1, g2, g3⟩ := offerStep_timers mid jk acc o
    exact ⟨h1.trans g1, h2.trans g2, h3.trans g3⟩

theorem recordFlush (s : ServerState) (key : String) (entry2 : Session)
    (hjne : entry2.joinerClientId ≠ "") (hjc : entry2.joinerClientId ∈ s.svc.clients) :
    (flushWaitingAnswers
        { s with waitingAnswers := fun k => if k = key then some entry2 else s.waitingAnswers k }
        key).2 =
      [(entry2.joinerClientId,
        Payload.answerMsg (entry2.collected.map (fun kv => kv.2)) (combinedOf entry2))] ∧
    (flushWaitingAnswers
        { s with waitingAnswers := fun k => if k = key then some entry2 else s.waitingAnswers k }
        key).1.waitingAnswers key = none := by
  have h := flush_some
    { s with waitingAnswers := fun k => if k = key then some entry2 else s.waitingAnswers k }
    key entry2 (by simp) hjne hjc
  exact ⟨h.1, h.2.1⟩

/-- C2: (a) the recorded answer that makes collectedAnswers cover all of
expectedPeers triggers an immediate flush to the joiner with the collected
answers, deleting the session; (b) a deadline firing on an open session
flushes exactly the subset of answers collected so far, so the joiner is
unblocked at the deadline and missing peers are simply absent from the
payload; (c) the deadline timer is armed for 3000 ms at offer fan-out. -/
theorem C2_theorem (s : ServerState) (mid u f c : String) (sess : Session) (ans : Ans)
    (cg : List (String × List String))
    (hsess : s.waitingAnswers (joinerKeyOf mid u) = some sess)
    (hto : ans.toUser = u)
    (hjne : sess.joinerClientId ≠ "") (hjc : sess.joinerClientId ∈ s.svc.clients) :
    ((∀ p ∈ sess.expected, (alGet (alSet sess.collected f ans) p).isSome = true) →
      ∃ s2 sends,
        handleAnswer s c (some f) (some mid) [ans] cg = .ok (s2, sends) ∧
        s2.waitingAnswers (joinerKeyOf mid u) = none ∧
        (sess.joinerClientId,
          Payload.answerMsg ((alSet sess.collected f ans).map (fun kv => kv.2))
            (combinedOf
              { sess with
                collected := alSet sess.collected f ans
                collectedCandidates :=
                  alSet sess.collectedCandidates f
                    ((alGet (buildCandidatesMap cg) f).getD []) })) ∈ sends) ∧
    (∀ tid d, (tid, joinerKeyOf mid u, d) ∈ s.pendingTimers →
      (timerFire s tid (joinerKeyOf mid u)).2 =
        [(sess.joinerClientId,
          Payload.answerMsg (sess.collected.map (fun kv => kv.2)) (combinedOf sess))] ∧
      (timerFire s tid (joinerKeyOf mid u)).1.waitingAnswers (joinerKeyOf mid u) = none) ∧
    (∀ (t : ServerState) (c0 fu mid0 : String) (offers : List Ans) (t1 : ServerState)
        (sends : List Send),
      handleOffer t c0 (some fu) (some mid0) offers = .ok (t1, sends) →
      (t.nextTimerId, joinerKeyOf mid0 fu, 3000) ∈ t1.pendingTimers) := by
  subst hto
  refine ⟨?_, ?_, ?_⟩
  · intro hcov
    unfold handleAnswer
    simp only [List.foldl_cons, List.foldl_nil]
    unfold answerStep
    simp only [Option.map_some', hsess]
    have hall : (sess.expected.all
        fun p => (alGet (alSet sess.collected f ans) p).isSome) = true :=
      List.all_eq_true.mpr hcov
    rw [if_pos hall]
    have hrf := recordFlush s (joinerKeyOf mid ans.toUser)
      ⟨sess.expected, alSet sess.collected f ans,
        alSet sess.collectedCandidates f ((alGet (buildCandidatesMap cg) f).getD []),
        sess.joinerClientId, sess.timer⟩ hjne hjc
    refine ⟨_, _, rfl, hrf.2, ?_⟩
    rw [List.nil_append, hrf.1]
    simp [combinedOf]
  · intro tid d hmem
    have hany : (s.pendingTimers.any
        fun t => decide (t.1 = tid ∧ t.2.1 = joinerKeyOf mid ans.toUser)) = true := by
      rw [List.any_eq_true]
      exact ⟨(tid, joinerKeyOf mid ans.toUser, d), hmem, by simp⟩
    unfold timerFire
    rw [hany, if_pos rfl]
    have hfl := flush_some
      { s with pendingTimers := s.pendingTimers.filter (fun t => t.1 ≠ tid) }
      (joinerKeyOf mid ans.toUser) sess hsess hjne hjc
    exact ⟨hfl.1, hfl.2.1⟩
  · intro t c0 fu mid0 offers t1 sends h
    by_cases ho : offers = []
    · subst ho
      simp [handleOffer] at h
    · simp only [handleOffer, Option.map_some'] at h
      rw [if_neg ho] at h
      simp only [Except.ok.injEq, Prod.mk.injEq] at h
      obtain ⟨h1, h2⟩ := h
      rw [← h1]
      rw [(offerFold_timers _ _ offers _).1]
      simp

/-- C2 witness: at demo6, uB's answer completes the expected set and flushes
both answers to cJ immediately; the deadline callback on demo6 would flush
the partial subset (just uA's answer). -/
theorem C2_witness :
    ∃ s2 sends,
      handleAnswer demo6 "cB" (some "uB") (some "m") [⟨"uB", "uJ", "sdpB"⟩] [] =
        .ok (s2, sends) ∧
      s2.waitingAnswers "m:uJ" = none ∧
      ("cJ", Payload.answerMsg [⟨"uA", "uJ", "sdpA"⟩, ⟨"uB", "uJ", "sdpB"⟩]
        [("uA", ["candA"])]) ∈ sends ∧
      (timerFire demo6 0 "m:uJ").2 =
        [("cJ", Payload.answerMsg [⟨"uA", "uJ", "sdpA"⟩] [("uA", ["candA"])])] := by
  have h := C2_theorem demo6 "m" "uJ" "uB" "cB"
    ⟨["uA", "uB"], [("uA", ⟨"uA", "uJ", "sdpA"⟩)], [("uA", ["candA"])], "cJ", some 0⟩
    ⟨"uB", "uJ", "sdpB"⟩ [] (by decide) rfl (by decide) (by decide)
  obtain ⟨s2, sends, heq, hnone, hmem⟩ := h.1 (by decide)
  exact ⟨s2, sends, heq, hnone, hmem, (h.2.1 0 3000 (by decide)).1⟩

/-- C10: an answer addressed to the joiner of an open session is recorded
even when the answering user is not in expectedPeers, and is included in the
eventual flush payload; in particular with an empty expectedPeers set the
first recorded answer triggers an immediate flush. -/
theorem C10_theorem (s : ServerState) (mid u f c : String) (sess : Session) (ans : Ans)
    (cg : List (String × List String))
    (hsess : s.waitingAnswers (joinerKeyOf mid u) = some sess)
    (hto : ans.toUser = u)
    (_hnexp : f ∉ sess.expected)
    (hjne : sess.joinerClientId ≠ "") (hjc : sess.joinerClientId ∈ s.svc.clients) :
    ((sess.expected = []) →
      ∃ s2 sends, handleAnswer s c (some f) (some mid) [ans] cg = .ok (s2, sends) ∧
        s2.waitingAnswers (joinerKeyOf mid u) = none ∧
        ∃ answersList cands,
          (sess.joinerClientId, Payload.answerMsg answersList cands) ∈ sends ∧
          ans ∈ answersList) ∧
    ((∃ p ∈ sess.expected, alGet (alSet sess.collected f ans) p = none) →
      ∃ s2 sends, handleAnswer s c (some f) (some mid) [ans] cg = .ok (s2, sends) ∧
        ∃ entry2, s2.waitingAnswers (joinerKeyOf mid u) = some entry2 ∧
          alGet entry2.collected f = some ans ∧
          s2.pendingTimers = s.pendingTimers ∧
          (∀ tid d, (tid, joinerKeyOf mid u, d) ∈ s2.pendingTimers →
            ∃ answersList cands,
              (timerFire s2 tid (joinerKeyOf mid u)).2 =
                [(sess.joinerClientId, Payload.answerMsg answersList cands)] ∧
              ans ∈ answersList)) := by
  subst hto
  constructor
  · intro hemp
    unfold handleAnswer
    simp only [List.foldl_cons, List.foldl_nil]
    unfold answerStep
    simp only [Option.map_some', hsess]
    have hall : (sess.expected.all
        fun p => (alGet (alSet sess.collected f ans) p).isSome) = true := by
      simp [hemp]
    rw [if_pos hall]
    have hrf := recordFlush s (joinerKeyOf mid ans.toUser)
      ⟨sess.expected, alSet sess.collected f ans,
        alSet sess.collectedCandidates f ((alGet (buildCandidatesMap cg) f).getD []),
        sess.joinerClientId, sess.timer⟩ hjne hjc
    refine ⟨_, _, rfl, hrf.2, ?_⟩
    refine ⟨(alSet sess.collected f ans).map (fun kv => kv.2),
      combinedOf ⟨sess.expected, alSet sess.collected f ans,
        alSet sess.collectedCandidates f ((alGet (buildCandidatesMap cg) f).getD []),
        sess.joinerClientId, sess.timer⟩, ?_, ?_⟩
    · rw [List.nil_append, hrf.1]
      simp
    · exact List.mem_map.mpr ⟨(f, ans), alSet_self_mem _ _ _, rfl⟩
  · intro hncov
    unfold handleAnswer
    simp only [List.foldl_cons, List.foldl_nil]
    unfold answerStep
    simp only [Option.map_some', hsess]
    have hall : (sess.expected.all
        fun p => (alGet (alSet sess.collected f ans) p).isSome) = false := by
      rw [List.all_eq_false]
      obtain ⟨p, hp, hget⟩ := hncov
      exact ⟨p, hp, by simp [hget]⟩
    have hcond : ¬ ((sess.expected.all
        fun p => (alGet (alSet sess.collected f ans) p).isSome) = true) := by
      simp [hall]
    rw [if_neg hcond]
    refine ⟨_, _, rfl, ?_⟩
    refine ⟨⟨sess.expected, alSet sess.collected f ans,
      alSet sess.collectedCandidates f ((alGet (buildCandidatesMap cg) f).getD []),
      sess.joinerClientId, sess.timer⟩, by simp, alGet_alSet_self _ _ _, rfl, ?_⟩
    intro tid d hmem
    have hany : (s.pendingTimers.any
        fun t => decide (t.1 = tid ∧ t.2.1 = joinerKeyOf mid ans.toUser)) = true := by
      rw [List.any_eq_true]
      exact ⟨(tid, joinerKeyOf mid ans.toUser, d), hmem, by simp⟩
    unfold timerFire
    rw [hany, if_pos rfl]
    have hfl := flush_some
      { svc := s.svc
        meetings := s.meetings
        waitingAnswers := fun k =>
          if k = joinerKeyOf mid ans.toUser then
            some ⟨sess.expected, alSet sess.collected f ans,
              alSet sess.collectedCandidates f ((alGet (buildCandidatesMap cg) f).getD []),
              sess.joinerClientId, sess.timer⟩
          else s.waitingAnswers k
        pendingTimers := s.pendingTimers.filter (fun t => t.1 ≠ tid)
        nextTimerId := s.nextTimerId }
      (joinerKeyOf mid ans.toUser)
      ⟨sess.expected, alSet sess.collected f ans,
        alSet sess.collectedCandidates f ((alGet (buildCandidatesMap cg) f).getD []),
        sess.joinerClientId, sess.timer⟩ (by simp) hjne hjc
    exact ⟨(alSet sess.collected f ans).map (fun kv => kv.2), _, hfl.1,
      List.mem_map.mpr ⟨(f, ans), alSet_self_mem _ _ _, rfl⟩⟩

/-- C10 witness: in demoE the session expects nobody, and uA (not an
expected peer) answers; the answer is recorded and flushed to cJ at once. -/
theorem C10_witness :
    ∃ s2 sends,
      handleAnswer demoE "cA" (some "uA") (some "m") [⟨"uA", "uJ", "sdpA"⟩] [] =
        .ok (s2, sends) ∧
      s2.waitingAnswers "m:uJ" = none ∧
      ∃ answersList cands,
        ("cJ", Payload.answerMsg answersList cands) ∈ sends ∧
        (⟨"uA", "uJ", "sdpA"⟩ : Ans) ∈ answersList := by
  have h := C10_theorem demoE "m" "uJ" "uA" "cA"
    ⟨[], [], [], "cJ", some 0⟩ ⟨"uA", "uJ", "sdpA"⟩ []
    (by decide) rfl (by decide) (by decide) (by decide)
  exact h.1 rfl

theorem setAdd_mem (l : List String) (x : String) : x ∈ setAdd l x := by
  unfold setAdd
  by_cases h : x ∈ l <;> simp [h]

theorem svcSend_mem (svc : SocketService) (c x : String) (p q : Payload) :
    ((x, q) ∈ svcSend svc c p) ↔ (x = c ∧ q = p ∧ c ∈ svc.clients) := by
  unfold svcSend
  by_cases h : c ∈ svc.clients <;> simp [h]

theorem svcBroadcast_mem (svc : SocketService) (mid : String) (excl : Option String)
    (p : Payload) (c : String) :
    ((c, p) ∈ svcBroadcast svc mid excl p) ↔
      (c ∈ svc.clients ∧ some c ≠ excl ∧
        ∃ m, svc.metas c = some m ∧ m.meetingId = some mid) := by
  constructor
  · intro hmem
    simp only [svcBroadcast, List.mem_flatMap] at hmem
    obtain ⟨a, ha, hin⟩ := hmem
    by_cases he : some a = excl
    · simp [he] at hin
    · rw [if_neg he] at hin
      cases hm : svc.metas a with
      | none => simp [hm] at hin
      | some m =>
        simp only [hm] at hin
        by_cases hmid : m.meetingId = some mid
        · rw [if_pos hmid] at hin
          rw [svcSend_mem] at hin
          obtain ⟨hca, -, hac⟩ := hin
          subst hca
          exact ⟨hac, he, m, hm, hmid⟩
        · simp [hmid] at hin
  · rintro ⟨hc, hex, m, hm, hmid⟩
    simp only [svcBroadcast, List.mem_flatMap]
    refine ⟨c, hc, ?_⟩
    rw [if_neg hex]
    simp only [hm]
    rw [if_pos hmid]
    simp [svcSend, hc]

/-- C7 counterexample: cA (user u1) is the only participant of meeting m;
cB (user u2) joins.  The reply to cB carries the participant list after the
join including u2 (not the pre-join list excluding u2), and cB itself
receives the participant-joined broadcast. -/
theorem C7_counterexample :
    (("cB", Payload.meetingState "m" ["u1", "u2"] [] []) ∈
      (((handleJoinB bState "cB" (some "u2") (some "m")).toOption.map Prod.snd).getD [])) ∧
    (("cB", Payload.participantJoined "u2" "m") ∈
      (((handleJoinB bState "cB" (some "u2") (some "m")).toOption.map Prod.snd).getD [])) ∧
    ¬ (("cB", Payload.meetingState "m" ["u1"] [] []) ∈
      (((handleJoinB bState "cB" (some "u2") (some "m")).toOption.map Prod.snd).getD [])) := by
  decide

/-- C7 (amended): for every join of a registered user u into meeting m, u is
added to m's participant set; the reply to u is the meeting-state snapshot
taken after the join, so its participant list includes u; and the
participant-joined broadcast is sent with no excluded client to every
connection bound to m after the join — which includes u's own freshly
bound connection — rather than excluding u. -/
theorem C7_theorem (s : StateB) (c u mid : String) :
    ∃ s1 sends, handleJoinB s c (some u) (some mid) = .ok (s1, sends) ∧
      (∃ mt', s1.meetings mid = some mt' ∧
        mt'.participants = setAdd ((s.meetings mid).getD Meeting.empty).participants u ∧
        u ∈ mt'.participants) ∧
      (c ∈ s.svc.clients →
        (c, Payload.meetingState mid
          (setAdd ((s.meetings mid).getD Meeting.empty).participants u)
          ((s.meetings mid).getD Meeting.empty).iceCandidates
          ((s.meetings mid).getD Meeting.empty).sdps) ∈ sends) ∧
      (∀ x, ((x, Payload.participantJoined u mid) ∈ sends) ↔
        (x ∈ s.svc.clients ∧
          ∃ mm, (s.svc.bindMeeting c (some mid)).metas x = some mm ∧
            mm.meetingId = some mid)) ∧
      (c ∈ s.svc.clients → (c, Payload.participantJoined u mid) ∈ sends) := by
  refine ⟨_, _, rfl, ?_, ?_, ?_, ?_⟩
  · exact ⟨⟨setAdd ((s.meetings mid).getD Meeting.empty).participants u,
      ((s.meetings mid).getD Meeting.empty).sdps,
      ((s.meetings mid).getD Meeting.empty).iceCandidates⟩, by simp, rfl, setAdd_mem _ _⟩
  · intro hc
    simp only [List.mem_append]
    left; right
    rw [svcSend_mem]
    exact ⟨rfl, rfl, hc⟩
  · intro x
    constructor
    · intro hx
      rcases List.mem_append.mp hx with h12 | h3
      · rcases List.mem_append.mp h12 with h1 | h2
        · have := (svcBroadcast_mem _ mid none _ x).mp h1
          exact ⟨this.1, this.2.2⟩
        · rw [svcSend_mem] at h2
          exact absurd h2.2.1 (by simp)
      · exfalso
        simp only [svcBroadcast, List.mem_flatMap] at h3
        obtain ⟨a, -, hin⟩ := h3
        by_cases he : some a = (none : Option String)
        · simp at he
        · rw [if_neg he] at hin
          cases hm : ((s.svc.bindMeeting c (some mid)).metas a) with
          | none => simp [hm] at hin
          | some m =>
            simp only [hm] at hin
            by_cases hmid : m.meetingId = some mid
            · rw [if_pos hmid] at hin
              rw [svcSend_mem] at hin
              exact absurd hin.2.1 (by simp)
            · simp [hmid] at hin
    · rintro ⟨hx, mm, hmm, hmid⟩
      apply List.mem_append.mpr
      left
      apply List.mem_append.mpr
      left
      exact (svcBroadcast_mem _ mid none _ x).mpr ⟨hx, by simp, mm, hmm, hmid⟩
  · intro hc
    apply List.mem_append.mpr
    left
    apply List.mem_append.mpr
    left
    refine (svcBroadcast_mem _ mid none _ c).mpr ⟨hc, by simp, ?_⟩
    refine ⟨⟨((s.svc.metas c).getD ⟨none, none⟩).userId, some mid⟩, ?_, rfl⟩
    simp [SocketService.bindMeeting]

/-- C7 witness: the amended join behaviour at the concrete bState: u2's
reply lists u1 and u2, and u2's own connection receives participant-joined. -/
theorem C7_witness :
    ∃ s1 sends, handleJoinB bState "cB" (some "u2") (some "m") = .ok (s1, sends) ∧
      (("cB", Payload.meetingState "m" ["u1", "u2"] [] []) ∈ sends) ∧
      (("cB", Payload.participantJoined "u2" "m") ∈ sends) := by
  obtain ⟨s1, sends, heq, -, hreply, -, hcj⟩ := C7_theorem bState "cB" "u2" "m"
  exact ⟨s1, sends, heq, hreply (by decide), hcj (by decide)⟩

theorem handleRegister_error (s : ServerState) (c : String) (f : Option String)
    (e : String) (st : ServerState) (sn : List Send)
    (h : handleRegister s c f = .error (e, st, sn)) : st = s ∧ sn = [] := by
  cases f <;> simp [handleRegister] at h
  first
  | exact ⟨h.2.1.symm, h.2.2.symm⟩
  | exact ⟨h.2.1.symm, h.2.2⟩

theorem handleJoinRequest_error (s : ServerState) (c : String) (fu mid : Option String)
    (e : String) (st : ServerState) (sn : List Send)
    (h : handleJoinRequest s c fu mid = .error (e, st, sn)) : st = s ∧ sn = [] := by
  cases fu <;> cases mid <;> simp [handleJoinRequest] at h <;>
    first
    | exact ⟨h.2.1.symm, h.2.2.symm⟩
    | exact ⟨h.2.1.symm, h.2.2⟩

theorem handleOffer_error (s : ServerState) (c : String) (fu mid : Option String)
    (offers : List Ans) (e : String) (st : ServerState) (sn : List Send)
    (h : handleOffer s c fu mid offers = .error (e, st, sn)) : st = s ∧ sn = [] := by
  cases fu with
  | none =>
    simp [handleOffer] at h
    first
    | exact ⟨h.2.1.symm, h.2.2.symm⟩
    | exact ⟨h.2.1.symm, h.2.2⟩
  | some f =>
    by_cases ho : offers = [] <;> simp [handleOffer, ho] at h
    first
    | exact ⟨h.2.1.symm, h.2.2.symm⟩
    | exact ⟨h.2.1.symm, h.2.2⟩

theorem handleAnswer_error (s : ServerState) (c : String) (fu mid : Option String)
    (answers : List Ans) (cg : List (String × List String))
    (e : String) (st : ServerState) (sn : List Send)
    (h : handleAnswer s c fu mid answers cg = .error (e, st, sn)) : st = s ∧ sn = [] := by
  cases fu with
  | none =>
    simp [handleAnswer] at h
    first
    | exact ⟨h.2.1.symm, h.2.2.symm⟩
    | exact ⟨h.2.1.symm, h.2.2⟩
  | some f =>
    by_cases ho : answers = [] <;> simp [handleAnswer, ho] at h
    first
    | exact ⟨h.2.1.symm, h.2.2.symm⟩
    | exact ⟨h.2.1.symm, h.2.2⟩

theorem handleIceCandidate_error (s : ServerState) (c : String)
    (fu dataTo mid cand : Option String)
    (e : String) (st : ServerState) (sn : List Send)
    (h : handleIceCandidate s c fu dataTo mid cand = .error (e, st, sn)) :
    st = s ∧ sn = [] := by
  cases fu with
  | none =>
    simp [handleIceCandidate] at h
    first
    | exact ⟨h.2.1.symm, h.2.2.symm⟩
    | exact ⟨h.2.1.symm, h.2.2⟩
  | some f =>
    cases cand with
    | none =>
      simp [handleIceCandidate] at h
      first
      | exact ⟨h.2.1.symm, h.2.2.symm⟩
      | exact ⟨h.2.1.symm, h.2.2⟩
    | some cd =>
      cases dataTo with
      | some t =>
        cases hg : s.svc.getClientIdByUser t <;> simp [handleIceCandidate, hg] at h
      | none =>
        cases mid with
        | some mi => simp [handleIceCandidate] at h
        | none =>
          simp [handleIceCandidate] at h
          first
          | exact ⟨h.2.1.symm, h.2.2.symm⟩
          | exact ⟨h.2.1.symm, h.2.2⟩

theorem handleLeave_error (s : ServerState) (c : String) (fu mid : Option String)
    (e : String) (st : ServerState) (sn : List Send)
    (h : handleLeave s c fu mid = .error (e, st, sn)) : st = s ∧ sn = [] := by
  cases fu <;> cases mid <;> simp [handleLeave] at h <;>
    first
    | exact ⟨h.2.1.symm, h.2.2.symm⟩
    | exact ⟨h.2.1.symm, h.2.2⟩

/-- C8: every inbound frame that fails a handler precondition check, is
unparseable, or carries an unknown type produces exactly an error reply to
the sender, leaves the entire server state (registry, meetings, sessions,
timers) unchanged, and never terminates the connection. -/
theorem C8_theorem (s : ServerState) (c : String) (m : Msg) (e : String)
    (h : precondError s c m = some e) :
    handleMessage s c m = (s, sendToClient s c (.errorMsg e)) ∧
    (handleMessage s c m).1.svc.clients = s.svc.clients := by
  have main : handleMessage s c m = (s, sendToClient s c (.errorMsg e)) := by
    cases m with
    | malformed =>
      simp only [precondError, Option.some.injEq] at h
      subst h
      rfl
    | unknown tag =>
      simp only [precondError, Option.some.injEq] at h
      subst h
      rfl
    | register f =>
      cases hd : handleRegister s c f with
      | ok r => simp [precondError, dispatchMsg, hd] at h
      | error pr =>
        obtain ⟨e', st, sn⟩ := pr
        simp only [precondError, dispatchMsg, hd, Option.some.injEq] at h
        subst h
        obtain ⟨hst, hsn⟩ := handleRegister_error s c f e' st sn hd
        subst hst
        subst hsn
        simp [handleMessage, dispatchMsg, hd]
    | joinRequest f mid =>
      cases hd : handleJoinRequest s c (boundUserOf s c f) mid with
      | ok r => simp [precondError, dispatchMsg, hd] at h
      | error pr =>
        obtain ⟨e', st, sn⟩ := pr
        simp only [precondError, dispatchMsg, hd, Option.some.injEq] at h
        subst h
        obtain ⟨hst, hsn⟩ := handleJoinRequest_error s c _ mid e' st sn hd
        subst hst
        subst hsn
        simp [handleMessage, dispatchMsg, hd]
    | offer f mid offers =>
      cases hd : handleOffer s c (boundUserOf s c f) mid offers with
      | ok r => simp [precondError, dispatchMsg, hd] at h
      | error pr =>
        obtain ⟨e', st, sn⟩ := pr
        simp only [precondError, dispatchMsg, hd, Option.some.injEq] at h
        subst h
        obtain ⟨hst, hsn⟩ := handleOffer_error s c _ mid offers e' st sn hd
        subst hst
        subst hsn
        simp [handleMessage, dispatchMsg, hd]
    | answer f mid answers cg =>
      cases hd : handleAnswer s c (boundUserOf s c f) mid answers cg with
      | ok r => simp [precondError, dispatchMsg, hd] at h
      | error pr =>
        obtain ⟨e', st, sn⟩ := pr
        simp only [precondError, dispatchMsg, hd, Option.some.injEq] at h
        subst h
        obtain ⟨hst, hsn⟩ := handleAnswer_error s c _ mid answers cg e' st sn hd
        subst hst
        subst hsn
        simp [handleMessage, dispatchMsg, hd]
    | ice f dataTo mid midAlt cand =>
      cases hd : handleIceCandidate s c (boundUserOf s c f) dataTo (jsOr mid midAlt) cand with
      | ok r => simp [precondError, dispatchMsg, hd] at h
      | error pr =>
        obtain ⟨e', st, sn⟩ := pr
        simp only [precondError, dispatchMsg, hd, Option.some.injEq] at h
        subst h
        obtain ⟨hst, hsn⟩ := handleIceCandidate_error s c _ dataTo _ cand e' st sn hd
        subst hst
        subst hsn
        simp [handleMessage, dispatchMsg, hd]
    | leave f mid midAlt =>
      cases hd : handleLeave s c (boundUserOf s c f) (boundMeetingOf s c mid midAlt) with
      | ok r => simp [precondError, dispatchMsg, hd] at h
      | error pr =>
        obtain ⟨e', st, sn⟩ := pr
        simp only [precondError, dispatchMsg, hd, Option.some.injEq] at h
        subst h
        obtain ⟨hst, hsn⟩ := handleLeave_error s c _ _ e' st sn hd
        subst hst
        subst hsn
        simp [handleMessage, dispatchMsg, hd]
  refine ⟨main, ?_⟩
  rw [main]

/-- C8 witness: a join_request sent before any register (and carrying no
from field) is rejected with an error reply and changes nothing; in
particular the three connected clients all stay registered. -/
theorem C8_witness :
    handleMessage demo1 "cA" (.joinRequest none (some "m")) =
      (demo1, sendToClient demo1 "cA" (.errorMsg "Must register before join_request")) ∧
    (handleMessage demo1 "cA" (.joinRequest none (some "m"))).1.svc.clients =
      ["cJ", "cA", "cB"] := by
  have h := C8_theorem demo1 "cA" (.joinRequest none (some "m"))
    "Must register before join_request" (by decide)
  exact ⟨h.1, h.2.trans (by decide)⟩

theorem hbProcess_untouched (snap : String → Bool) (c : String) :
    ∀ (l : List String) (st : HBState) (ev : List String), c ∉ l →
      ((c ∈ (hbProcess snap l st ev).1.server.svc.clients ↔
          c ∈ st.server.svc.clients) ∧
        (hbProcess snap l st ev).1.alive c = st.alive c ∧
        (hbProcess snap l st ev).2.count c = ev.count c) := by
  intro l
  induction l with
  | nil => intro st ev _; exact ⟨Iff.rfl, rfl, rfl⟩
  | cons a t ih =>
    intro st ev h
    have hca : c ≠ a := fun hc => h (hc ▸ List.mem_cons_self a t)
    have hct : c ∉ t := fun hc => h (List.mem_cons_of_mem a hc)
    unfold hbProcess
    by_cases hs : snap a = true
    · rw [if_pos hs]
      obtain ⟨i1, i2, i3⟩ :=
        ih { st with alive := fun x => if x = a then false else st.alive x } ev hct
      exact ⟨i1, i2.trans (by simp [hca]), i3⟩
    · rw [if_neg hs]
      obtain ⟨i1, i2, i3⟩ :=
        ih { st with server := (handleClose st.server a).1 } (ev ++ [a]) hct
      refine ⟨?_, i2, ?_⟩
      · rw [i1, (handleClose_parts st.server a).1]
        exact List.mem_erase_of_ne hca
      · rw [i3]
        simp [List.count_append, hca]

theorem hbProcess_nodup (snap : String → Bool) :
    ∀ (l : List String) (st : HBState) (ev : List String),
      st.server.svc.clients.Nodup →
      (hbProcess snap l st ev).1.server.svc.clients.Nodup := by
  intro l
  induction l with
  | nil => intro st ev h; exact h
  | cons a t ih =>
    intro st ev h
    unfold hbProcess
    by_cases hs : snap a = true
    · rw [if_pos hs]
      exact ih _ ev h
    · rw [if_neg hs]
      apply ih _ (ev ++ [a])
      show ((handleClose st.server a).1.svc.clients).Nodup
      rw [(handleClose_parts st.server a).1]
      exact h.erase a

theorem hbProcess_evict (snap : String → Bool) (c : String) :
    ∀ (l : List String) (st : HBState) (ev : List String),
      l.Nodup → c ∈ l → c ∈ st.server.svc.clients → st.server.svc.clients.Nodup →
      snap c = false →
      (c ∉ (hbProcess snap l st ev).1.server.svc.clients ∧
        (hbProcess snap l st ev).2.count c = ev.count c + 1) := by
  intro l
  induction l with
  | nil => intro st ev _ hcl; exact absurd hcl (List.not_mem_nil c)
  | cons a t ih =>
    intro st ev hnd hcl hcs hcnd hsnap
    unfold hbProcess
    by_cases hac : c = a
    · subst hac
      rw [if_neg (by simp [hsnap])]
      have hct : c ∉ t := (List.nodup_cons.mp hnd).1
      obtain ⟨i1, -, i3⟩ := hbProcess_untouched snap c t
        { st with server := (handleClose st.server c).1 } (ev ++ [c]) hct
      constructor
      · intro hmem
        have := i1.mp hmem
        rw [show ({ st with server := (handleClose st.server c).1 } :
            HBState).server.svc.clients = (handleClose st.server c).1.svc.clients from rfl,
          (handleClose_parts st.server c).1] at this
        exact hcnd.not_mem_erase this
      · rw [i3]
        simp [List.count_append]
    · have hct : c ∈ t := by
        cases List.mem_cons.mp hcl with
        | inl h => exact absurd h hac
        | inr h => exact h
      have htnd : t.Nodup := (List.nodup_cons.mp hnd).2
      by_cases hs : snap a = true
      · rw [if_pos hs]
        exact ih { st with alive := fun x => if x = a then false else st.alive x } ev
          htnd hct hcs hcnd hsnap
      · rw [if_neg hs]
        have hmem : c ∈ (handleClose st.server a).1.svc.clients := by
          rw [(handleClose_parts st.server a).1]
          exact (List.mem_erase_of_ne hac).mpr hcs
        have hnd2 : ((handleClose st.server a).1.svc.clients).Nodup := by
          rw [(handleClose_parts st.server a).1]
          exact hcnd.erase a
        obtain ⟨i1, i2⟩ := ih { st with server := (handleClose st.server a).1 } (ev ++ [a])
          htnd hct hmem hnd2 hsnap
        refine ⟨i1, ?_⟩
        rw [i2]
        simp [List.count_append, hac]

theorem hbProcess_pending (snap : String → Bool) (c : String) :
    ∀ (l : List String) (st : HBState) (ev : List String),
      l.Nodup → c ∈ l → c ∈ st.server.svc.clients → snap c = true →
      (c ∈ (hbProcess snap l st ev).1.server.svc.clients ∧
        (hbProcess snap l st ev).1.alive c = false ∧
        (hbProcess snap l st ev).2.count c = ev.count c) := by
  intro l
  induction l with
  | nil => intro st ev _ hcl; exact absurd hcl (List.not_mem_nil c)
  | cons a t ih =>
    intro st ev hnd hcl hcs hsnap
    unfold hbProcess
    by_cases hac : c = a
    · subst hac
      rw [if_pos hsnap]
      have hct : c ∉ t := (List.nodup_cons.mp hnd).1
      obtain ⟨i1, i2, i3⟩ := hbProcess_untouched snap c t
        { st with alive := fun x => if x = c then false else st.alive x } ev hct
      exact ⟨i1.mpr hcs, i2.trans (by simp), i3⟩
    · have hct : c ∈ t := by
        cases List.mem_cons.mp hcl with
        | inl h => exact absurd h hac
        | inr h => exact h
      have htnd : t.Nodup := (List.nodup_cons.mp hnd).2
      by_cases hs : snap a = true
      · rw [if_pos hs]
        exact ih { st with alive := fun x => if x = a then false else st.alive x } ev
          htnd hct hcs hsnap
      · rw [if_neg hs]
        have hmem : c ∈ (handleClose st.server a).1.svc.clients := by
          rw [(handleClose_parts st.server a).1]
          exact (List.mem_erase_of_ne hac).mpr hcs
        obtain ⟨i1, i2, i3⟩ := ih { st with server := (handleClose st.server a).1 }
          (ev ++ [a]) htnd hct hmem hsnap
        refine ⟨i1, i2, ?_⟩
        rw [i3]
        simp [List.count_append, hac]

/-- C6: a registered connection with zero inbound activity across two
consecutive heartbeat ticks is gone after the second tick, and the
close-path teardown (eviction) runs exactly once across the two ticks.
Modelled from the spec: no heartbeat monitor exists under src/. -/
theorem C6_theorem (s : HBState) (c : String)
    (hnd : s.server.svc.clients.Nodup) (hc : c ∈ s.server.svc.clients) :
    (c ∉ (hbTick (hbTick s).1).1.server.svc.clients) ∧
    (((hbTick s).2 ++ (hbTick (hbTick s).1).2).count c = 1) := by
  by_cases ha : s.alive c = true
  · obtain ⟨h1c, h1a, h1ct⟩ :=
      hbProcess_pending s.alive c s.server.svc.clients s [] hnd hc hc ha
    have hnd1 : (hbTick s).1.server.svc.clients.Nodup :=
      hbProcess_nodup s.alive s.server.svc.clients s [] hnd
    obtain ⟨h2c, h2ct⟩ := hbProcess_evict (hbTick s).1.alive c
      (hbTick s).1.server.svc.clients (hbTick s).1 [] hnd1 h1c h1c hnd1 h1a
    refine ⟨h2c, ?_⟩
    show ((hbProcess s.alive s.server.svc.clients s []).2 ++
      (hbProcess (hbTick s).1.alive (hbTick s).1.server.svc.clients
        (hbTick s).1 []).2).count c = 1
    rw [List.count_append, h1ct, h2ct]
    rfl
  · have ha0 : s.alive c = false := by
      cases hval : s.alive c with
      | true => exact absurd hval ha
      | false => rfl
    obtain ⟨h1c, h1ct⟩ :=
      hbProcess_evict s.alive c s.server.svc.clients s [] hnd hc hc hnd ha0
    obtain ⟨h2c, -, h2ct⟩ := hbProcess_untouched (hbTick s).1.alive c
      (hbTick s).1.server.svc.clients (hbTick s).1 [] h1c
    refine ⟨fun hmem => h1c (h2c.mp hmem), ?_⟩
    show ((hbProcess s.alive s.server.svc.clients s []).2 ++
      (hbProcess (hbTick s).1.alive (hbTick s).1.server.svc.clients
        (hbTick s).1 []).2).count c = 1
    rw [List.count_append, h1ct, h2ct]
    rfl

/-- C6 witness: the two-tick eviction at a concrete state — cZ is registered
and active; after two quiet ticks it is gone, evicted exactly once. -/
theorem C6_witness :
    ("cZ" ∉ (hbTick (hbTick ⟨{ ServerState.init with
        svc := SocketService.init.addSocket "cZ" }, fun _ => true⟩).1).1.server.svc.clients) ∧
    (((hbTick ⟨{ ServerState.init with svc := SocketService.init.addSocket "cZ" },
          fun _ => true⟩).2 ++
        (hbTick (hbTick ⟨{ ServerState.init with
          svc := SocketService.init.addSocket "cZ" }, fun _ => true⟩).1).2).count "cZ" = 1) := by
  exact C6_theorem
    ⟨{ ServerState.init with svc := SocketService.init.addSocket "cZ" }, fun _ => true⟩
    "cZ" (by decide) (by decide)
